import Mathlib

/-!
Shallow embedding of the `game_input` crate: the `Axis` and `Button` control
state machines (`src/axis/axis.rs`, `src/button/button.rs`), the `Change`,
`Binding` and `State` tagged unions and the generic `Manager` registry
(`src/change/change.rs`, `src/manager/manager.rs`).

Modelling conventions:
- `f64` positions are modelled as exact rationals `ℚ`; every arithmetic
  operation the code performs on positions is exact on the dyadic values the
  claims are about, and no claim is about rounding.
- `std::time::Duration` is modelled by whole seconds plus subsecond
  nanoseconds, with `subsec_millis` truncating as in Rust.
- `HashMap` is modelled as an association list with first-match lookup and
  replace-on-insert, which realises the same map abstraction (the code never
  depends on iteration order beyond per-entry updates).
- The `unreachable!()` arm of `Manager::apply_change` is modelled by an
  `Option` result: `none` is the panic, `some` the normal return.
-/

attribute [local semireducible] Rat.mul Rat.add Rat.sub Rat.inv

namespace GameInput

/-- Source `Direction` from `src/change/change.rs`. -/
inductive Direction where
  | Up
  | Down
deriving DecidableEq, Repr

/-- Source `impl Into<f64> for Direction` from `src/change/change.rs`. -/
def Direction.into : Direction → ℚ
  | .Up => 1
  | .Down => -1

/-- Source `std::time::Duration`: whole seconds and a subsecond nanosecond part. -/
structure Duration where
  secs : Nat
  subsecNanos : Nat
deriving DecidableEq, Repr

/-- Rust's `Duration::subsec_millis` (truncating division). -/
def Duration.subsecMillis (d : Duration) : Nat := d.subsecNanos / 1000000

/-- The millisecond count `delta.as_secs() * 1000 + delta.subsec_millis()`
computed inside `Axis::tick`. -/
def Duration.asMillis (d : Duration) : Nat := d.secs * 1000 + d.subsecMillis

/-- Source `AxisChange` from `src/change/change.rs`. -/
inductive AxisChange where
  | Position (pos : ℚ)
  | Velocity (vel : Direction)
  | Falling (dir : Direction)
deriving DecidableEq, Repr

/-- Source `ButtonChange(pub bool)` from `src/change/change.rs`. -/
structure ButtonChange where
  val : Bool
deriving DecidableEq, Repr

/-- Source `Axis` from `src/axis/axis.rs`. -/
structure Axis where
  position : ℚ
  velocity : Option Direction
  falling : Bool
deriving DecidableEq, Repr

/-- Source `#[derive(Default)]` for `Axis`. -/
def Axis.default : Axis := ⟨0, none, false⟩

/-- Source `Axis::apply` from `src/axis/axis.rs`. The source assigns
`self.falling = false` before dispatching and the matched `Falling` arm then
overwrites it with `true`; here the net `falling` value is written in each
arm (the reset does not touch `position` or `velocity`). A `Falling(dir)`
request fires only when `dir` matches the current velocity direction. -/
def Axis.apply (a : Axis) (change : AxisChange) : Axis :=
  match change with
  | .Position pos => { a with falling := false, position := pos }
  | .Velocity vel => { a with falling := false, velocity := some vel }
  | .Falling dir =>
    match dir, a.velocity with
    | .Down, some .Down => { a with falling := true, velocity := none }
    | .Up, some .Up => { a with falling := true, velocity := none }
    | _, _ => { a with falling := false }

/-- Source `Axis::tick` from `src/axis/axis.rs`: integrate `dx * millis / 500`, then
either the falling overshoot check or the `[-1, 1]` clamp. -/
def Axis.tick (a : Axis) (delta : Duration) : Axis :=
  let dx : ℚ :=
    if a.falling then
      if a.position > 0 then -1 else 1
    else
      ((a.velocity.map Direction.into).getD 0)
  let pos := a.position + dx * (delta.asMillis : ℚ) / 500
  if a.falling then
    if dx * pos > 0 then
      { a with position := 0, falling := false }
    else
      { a with position := pos }
  else
    { a with position := if pos > 1 then 1 else if pos < -1 then -1 else pos }

/-- Source `Button` from `src/button/button.rs`. -/
structure Button where
  pressed : Bool
  new_event : Bool
deriving DecidableEq, Repr

/-- Source `#[derive(Default)]` for `Button`. -/
def Button.default : Button := ⟨false, false⟩

/-- Source `Button::apply` from `src/button/button.rs`: raise `new_event` on a value
change, then store the new value. -/
def Button.apply (b : Button) (change : Bool) : Button :=
  let b := if b.pressed != change then { b with new_event := true } else b
  { b with pressed := change }

/-- Source `Button::tick` from `src/button/button.rs`: clear the edge pulse. -/
def Button.tick (b : Button) : Button := { b with new_event := false }

/-! ### Association-list model of `std::collections::HashMap` -/

/-- Source `HashMap::get`: first-match lookup in the association list. -/
def Map.find? {K V : Type} [DecidableEq K] : List (K × V) → K → Option V
  | [], _ => none
  | (k2, v) :: rest, k => if k2 = k then some v else Map.find? rest k

/-- Source `HashMap::insert`: replace the entry for the key if present, else append. -/
def Map.insert {K V : Type} [DecidableEq K] : List (K × V) → K → V → List (K × V)
  | [], k, v => [(k, v)]
  | (k2, v2) :: rest, k, v =>
    if k2 = k then (k, v) :: rest else (k2, v2) :: Map.insert rest k v

/-- Source `HashMap::contains_key`. -/
def Map.contains {K V : Type} [DecidableEq K] (m : List (K × V)) (k : K) : Bool :=
  (Map.find? m k).isSome

/-! ### The `Manager` from `src/manager/manager.rs` -/

/-- Source `Change` from `src/manager/manager.rs`. -/
inductive Change where
  | Axis (c : AxisChange)
  | Button (c : ButtonChange)
deriving DecidableEq, Repr

/-- Source `Binding<A, B>` from `src/manager/manager.rs`. -/
inductive Binding (A B : Type) where
  | Axis (a : A)
  | Button (b : B)
deriving DecidableEq, Repr

/-- Source `State` from `src/manager/manager.rs`. -/
inductive State where
  | Axis (a : Axis)
  | Button (b : Button)
deriving DecidableEq, Repr

/-- Source `Manager<A, B, C>` from `src/manager/manager.rs`. -/
structure Manager (A B C : Type) where
  states : List (Binding A B × State)
  bindings : List (C × Binding A B)
  default_changes : List (C × Change)
deriving DecidableEq, Repr

variable {A B C : Type} [DecidableEq A] [DecidableEq B] [DecidableEq C]

/-- Source `Manager::new`. -/
def Manager.new : Manager A B C :=
  { states := [], bindings := [], default_changes := [] }

/-- Source `Manager::add_axis_binding`: route the raw input to the axis binding, and
create default live state only if the binding has none yet. -/
def Manager.add_axis_binding (m : Manager A B C) (axis : A) (input : C) :
    Manager A B C :=
  let binding : Binding A B := Binding.Axis axis
  let m := { m with bindings := Map.insert m.bindings input binding }
  if Map.contains m.states binding then m
  else { m with states := Map.insert m.states binding (State.Axis Axis.default) }

/-- Source `Manager::add_button_binding`: same as `add_axis_binding` for buttons. -/
def Manager.add_button_binding (m : Manager A B C) (button : B) (input : C) :
    Manager A B C :=
  let binding : Binding A B := Binding.Button button
  let m := { m with bindings := Map.insert m.bindings input binding }
  if Map.contains m.states binding then m
  else { m with states := Map.insert m.states binding (State.Button Button.default) }

/-- Source `Manager::add_default_change`. -/
def Manager.add_default_change (m : Manager A B C) (change : Change) (input : C) :
    Manager A B C :=
  { m with default_changes := Map.insert m.default_changes input change }

/-- Source `Manager::get_binding`. -/
def Manager.get_binding (m : Manager A B C) (input : C) : Option (Binding A B) :=
  Map.find? m.bindings input

/-- Source `Manager::get_default_change`. -/
def Manager.get_default_change (m : Manager A B C) (input : C) : Option Change :=
  Map.find? m.default_changes input

/-- Source `Manager::apply_change`: no-op when the binding has no live state; update
the matching control otherwise; `none` models the `unreachable!()` panic on a
kind mismatch between the `State` and the `Change`. -/
def Manager.apply_change (m : Manager A B C) (binding : Binding A B)
    (change : Change) : Option (Manager A B C) :=
  match Map.find? m.states binding with
  | none => some m
  | some st =>
    match st, change with
    | State.Axis a, Change.Axis c =>
      some { m with states := Map.insert m.states binding (State.Axis (a.apply c)) }
    | State.Button b, Change.Button c =>
      some { m with states := Map.insert m.states binding (State.Button (b.apply c.val)) }
    | _, _ => none

/-- The per-entry update performed by `Manager::tick` on each live state. -/
def State.tick (delta : Duration) : State → State
  | State.Axis a => State.Axis (a.tick delta)
  | State.Button b => State.Button b.tick

/-- Source `Manager::tick`: advance every live state once. -/
def Manager.tick (m : Manager A B C) (delta : Duration) : Manager A B C :=
  { m with states := m.states.map fun p => (p.1, State.tick delta p.2) }

/-- Source `Manager::get_axis`: typed projection; `none` on a missing key or a
kind-mismatched state. -/
def Manager.get_axis (m : Manager A B C) (binding : A) : Option Axis :=
  (Map.find? m.states (Binding.Axis binding)).bind fun val =>
    match val with
    | State.Axis a => some a
    | _ => none

/-- Source `Manager::get_button`: typed projection; `none` on a missing key or a
kind-mismatched state. -/
def Manager.get_button (m : Manager A B C) (binding : B) : Option Button :=
  (Map.find? m.states (Binding.Button binding)).bind fun val =>
    match val with
    | State.Button b => some b
    | _ => none

/-- Source `Manager::get_changed_buttons`: the buttons whose edge fired this tick. -/
def Manager.get_changed_buttons (m : Manager A B C) : List (B × Button) :=
  m.states.filterMap fun p =>
    match p.2 with
    | State.Button b =>
      if b.new_event then
        match p.1 with
        | Binding.Button bind => some (bind, b)
        | _ => none
      else none
    | _ => none

/-- Source `Manager::get_button_pressed`: edge-triggered "just pressed" query. -/
def Manager.get_button_pressed (m : Manager A B C) (button : B) : Bool :=
  ((m.get_button button).map fun b => b.pressed && b.new_event).getD false

/-! ### Kind agreement between bindings, states and changes -/

/-- A `State` value is of the kind announced by the `Binding` key. -/
def StateMatches {A B : Type} : Binding A B → State → Bool
  | Binding.Axis _, State.Axis _ => true
  | Binding.Button _, State.Button _ => true
  | _, _ => false

/-- A `Change` is of the kind announced by the `Binding` it is routed to. -/
def ChangeMatches {A B : Type} : Binding A B → Change → Bool
  | Binding.Axis _, Change.Axis _ => true
  | Binding.Button _, Change.Button _ => true
  | _, _ => false

/-- The registry invariant: every live state entry is of the kind announced
by its `Binding` key. -/
abbrev WfStates (m : Manager A B C) : Prop :=
  m.states.all (fun p => StateMatches p.1 p.2) = true

end GameInput

-- The crate's own `Axis` unit tests, replayed against the embedding.
example : (GameInput.Axis.mk 0 (some .Up) false).tick ⟨0, 100000000⟩ =
    GameInput.Axis.mk (1/5) (some .Up) false := by decide
example : (GameInput.Axis.mk (9/10) (some .Up) false).tick ⟨1, 0⟩ =
    GameInput.Axis.mk 1 (some .Up) false := by decide
example : (GameInput.Axis.mk (1/2) none true).tick ⟨0, 100000000⟩ =
    GameInput.Axis.mk (3/10) none true := by decide
example : (GameInput.Axis.mk (1/2) none true).tick ⟨1, 0⟩ =
    GameInput.Axis.mk 0 none false := by decide
example : (GameInput.Axis.mk (1/2) none true).tick ⟨0, 250000000⟩ =
    GameInput.Axis.mk 0 none true := by decide

-- Manager-level checks mirroring the crate's `manager.rs` unit tests.
example :
    ((GameInput.Manager.new : GameInput.Manager Nat Nat Nat).add_axis_binding 0 5).get_axis 0 =
      some GameInput.Axis.default := by decide
example :
    ((GameInput.Manager.new : GameInput.Manager Nat Nat Nat).add_button_binding 7 5).get_button_pressed 7 =
      false := by decide
example :
    (((GameInput.Manager.new : GameInput.Manager Nat Nat Nat).add_button_binding 7 5).apply_change
        (GameInput.Binding.Button 7) (GameInput.Change.Button ⟨true⟩)).map
        (fun m => m.get_button_pressed 7) = some true := by decide

namespace GameInput

/-! ### Association-list lemmas -/

theorem Map.find?_insert_self {K V : Type} [DecidableEq K] (s : List (K × V)) (k : K) (v : V) :
    Map.find? (Map.insert s k v) k = some v := by
  induction s with
  | nil => simp [Map.insert, Map.find?]
  | cons p rest ih =>
    obtain ⟨k2, v2⟩ := p
    by_cases h : k2 = k
    · simp [Map.insert, h, Map.find?]
    · simp [Map.insert, h, Map.find?, ih]

theorem Map.contains_insert_self {K V : Type} [DecidableEq K] (s : List (K × V)) (k : K) (v : V) :
    Map.contains (Map.insert s k v) k = true := by
  simp [Map.contains, Map.find?_insert_self]

theorem Map.mem_of_find? {K V : Type} [DecidableEq K] {s : List (K × V)} {k : K} {v : V}
    (h : Map.find? s k = some v) : (k, v) ∈ s := by
  induction s with
  | nil => simp [Map.find?] at h
  | cons p rest ih =>
    obtain ⟨k2, v2⟩ := p
    by_cases hk : k2 = k
    · subst hk
      simp [Map.find?] at h
      subst h
      exact List.mem_cons_self _ _
    · simp [Map.find?, hk] at h
      exact List.mem_cons_of_mem _ (ih h)

theorem Map.mem_insert {K V : Type} [DecidableEq K] {s : List (K × V)} {k : K} {v : V}
    {p : K × V} (h : p ∈ Map.insert s k v) : p ∈ s ∨ p = (k, v) := by
  induction s with
  | nil =>
    simp [Map.insert] at h
    exact Or.inr h
  | cons q rest ih =>
    obtain ⟨k2, v2⟩ := q
    by_cases hk : k2 = k
    · simp [Map.insert, hk] at h
      rcases h with h | h
      · exact Or.inr h
      · exact Or.inl (List.mem_cons_of_mem _ h)
    · simp [Map.insert, hk] at h
      rcases h with h | h
      · exact Or.inl (by simp [h])
      · rcases ih h with h2 | h2
        · exact Or.inl (List.mem_cons_of_mem _ h2)
        · exact Or.inr h2

theorem Map.find?_map {K V : Type} [DecidableEq K] (s : List (K × V)) (f : V → V) (k : K) :
    Map.find? (s.map fun q => (q.1, f q.2)) k = (Map.find? s k).map f := by
  induction s with
  | nil => rfl
  | cons p rest ih =>
    obtain ⟨k2, v2⟩ := p
    by_cases h : k2 = k <;> simp [Map.find?, h, ih]

theorem Map.contains_iff_find? {K V : Type} [DecidableEq K] {s : List (K × V)} {k : K} :
    Map.contains s k = true ↔ ∃ v, Map.find? s k = some v := by
  simp [Map.contains, Option.isSome_iff_exists]

end GameInput

namespace GameInput

/-! ### Button lemmas -/

theorem Button.apply_pressed (b : Button) (c : Bool) : (b.apply c).pressed = c := rfl

theorem Button.apply_new_event (b : Button) (c : Bool) :
    (b.apply c).new_event = (b.new_event || (b.pressed != c)) := by
  rcases b with ⟨p, e⟩
  cases p <;> cases e <;> cases c <;> rfl

theorem Button.apply_self (b : Button) (c : Bool) (h : b.pressed = c) : b.apply c = b := by
  rcases b with ⟨p, e⟩
  cases h
  cases p <;> cases e <;> rfl

theorem Button.foldl_apply_sticky (cs : List Bool) (b : Button) (h : b.new_event = true) :
    (cs.foldl Button.apply b).new_event = true := by
  induction cs generalizing b with
  | nil => exact h
  | cons c cs ih =>
    simp only [List.foldl_cons]
    exact ih _ (by rw [Button.apply_new_event, h, Bool.true_or])

end GameInput

namespace GameInput

/-- C4: `Button.apply` sets `new_event = true` exactly when the applied value
differs from the current `pressed` value, always assigns `pressed = change`,
applying an equal value leaves `new_event` untouched, and an already-set
`new_event` is never cleared by `apply`. -/
theorem button_apply_edge (b : Button) (c : Bool) :
    (b.apply c).pressed = c ∧
    (b.pressed ≠ c → (b.apply c).new_event = true) ∧
    (b.pressed = c → (b.apply c).new_event = b.new_event) ∧
    (b.new_event = true → (b.apply c).new_event = true) := by
  rcases b with ⟨p, e⟩
  cases p <;> cases e <;> cases c <;> simp [Button.apply]

/-- Witness for C4 at a concrete button: pressing a released button stores the
press and raises the edge pulse. -/
theorem button_apply_edge_witness :
    ((Button.mk false false).apply true).pressed = true ∧
    ((Button.mk false false).apply true).new_event = true :=
  ⟨(button_apply_edge (Button.mk false false) true).1,
   (button_apply_edge (Button.mk false false) true).2.1 (by decide)⟩

/-- C5 counterexample: a press-then-release between two ticks nets to no
state change, yet the pulse is present (`new_event` is sticky between ticks),
refuting "pulse present iff net pressed value differs". -/
theorem button_net_change_counterexample :
    ([true, false].foldl Button.apply (Button.mk false false)).pressed =
      (Button.mk false false).pressed ∧
    ([true, false].foldl Button.apply (Button.mk false false)).new_event = true := by
  decide

/-- C5 (amended): for any finite sequence of `Button.apply` calls starting
right after a tick (`new_event = false`), the pulse observed before the next
tick is present iff some applied value differs from the `pressed` value at
the first tick (any momentary change fires it, not only a net change), and
`tick` unconditionally clears `new_event`, making the pulse one tick wide. -/
theorem button_pulse_iff_momentary_change (b : Button) (cs : List Bool)
    (h : b.new_event = false) :
    ((cs.foldl Button.apply b).new_event = true ↔ ∃ c ∈ cs, c ≠ b.pressed) ∧
    ((cs.foldl Button.apply b).tick.new_event = false) := by
  constructor
  · induction cs generalizing b with
    | nil => simp [h]
    | cons c cs ih =>
      by_cases hc : c = b.pressed
      · rw [List.foldl_cons, Button.apply_self b c (hc ▸ rfl)]
        rw [ih b h]
        simp [hc]
      · simp only [List.foldl_cons]
        have hev : (b.apply c).new_event = true := by
          rw [Button.apply_new_event, h, Bool.false_or, bne_iff_ne]
          exact fun hpc => hc hpc.symm
        rw [Button.foldl_apply_sticky cs _ hev]
        simp only [true_iff]
        exact ⟨c, List.mem_cons_self _ _, fun hcb => hc hcb⟩
  · rfl

/-- Witness for C5 at a concrete run: a single press starting from the
released, pulse-free button fires the pulse, and the next tick clears it. -/
theorem button_pulse_iff_momentary_change_witness :
    (([true].foldl Button.apply (Button.mk false false)).new_event = true ↔
      ∃ c ∈ [true], c ≠ (Button.mk false false).pressed) ∧
    (([true].foldl Button.apply (Button.mk false false)).tick.new_event = false) :=
  button_pulse_iff_momentary_change (Button.mk false false) [true] rfl

end GameInput

namespace GameInput

/-- C1: `Axis.apply` with `Falling(dir)` triggers falling (`falling = true`,
`velocity = none`) iff `dir` equals the current velocity direction; otherwise
velocity is left unchanged and the axis ends up not falling. -/
theorem axis_apply_falling_gating (a : Axis) (dir : Direction) :
    (((a.apply (AxisChange.Falling dir)).falling = true ∧
      (a.apply (AxisChange.Falling dir)).velocity = none) ↔ a.velocity = some dir) ∧
    (a.velocity ≠ some dir →
      (a.apply (AxisChange.Falling dir)).velocity = a.velocity ∧
      (a.apply (AxisChange.Falling dir)).falling = false) := by
  rcases hv : a.velocity with _ | d
  · cases dir <;> simp [Axis.apply, hv]
  · cases d <;> cases dir <;> simp [Axis.apply, hv]

/-- Witness for C1: a `Falling(Down)` request against an axis moving `Up`
leaves the velocity alone and does not trigger falling. -/
theorem axis_apply_falling_gating_witness :
    ((Axis.mk (1/2) (some Direction.Up) false).apply
        (AxisChange.Falling Direction.Down)).velocity =
      (Axis.mk (1/2) (some Direction.Up) false).velocity ∧
    ((Axis.mk (1/2) (some Direction.Up) false).apply
        (AxisChange.Falling Direction.Down)).falling = false :=
  (axis_apply_falling_gating (Axis.mk (1/2) (some Direction.Up) false)
      Direction.Down).2 (by decide)

/-- C2 counterexample: a falling axis at `position = 1/2` ticked 250 ms lands
exactly on zero, yet `falling` stays `true` — the code settles only on a
strict overshoot (`dx * position > 0`), not on exactly reaching zero. -/
theorem axis_tick_exact_zero_keeps_falling :
    ((Axis.mk (1/2) none true).tick (Duration.mk 0 250000000)).position = 0 ∧
    ((Axis.mk (1/2) none true).tick (Duration.mk 0 250000000)).falling = true := by
  decide

/-- C2 (amended): a falling axis moves toward zero by `millis / 500`
(`dx = -1` when `position > 0`, else `+1`); it settles (`position = 0`,
`falling := false`) iff the step strictly overshoots zero (`dx * newpos > 0`);
exactly reaching zero keeps `falling` set. The 1000 ms settle example holds. -/
theorem axis_tick_falling_step (a : Axis) (delta : Duration) (hf : a.falling = true) :
    ((if a.position > 0 then (-1 : ℚ) else 1) *
        (a.position + (if a.position > 0 then (-1 : ℚ) else 1) *
          (delta.asMillis : ℚ) / 500) > 0 →
      (a.tick delta).position = 0 ∧ (a.tick delta).falling = false) ∧
    (¬ ((if a.position > 0 then (-1 : ℚ) else 1) *
        (a.position + (if a.position > 0 then (-1 : ℚ) else 1) *
          (delta.asMillis : ℚ) / 500) > 0) →
      (a.tick delta).position =
        a.position + (if a.position > 0 then (-1 : ℚ) else 1) *
          (delta.asMillis : ℚ) / 500 ∧
      (a.tick delta).falling = true) ∧
    (((Axis.mk (1/2) none true).tick (Duration.mk 1 0)).position = 0 ∧
     ((Axis.mk (1/2) none true).tick (Duration.mk 1 0)).falling = false) := by
  refine ⟨fun h => ?_, fun h => ?_, by decide⟩
  · simp only [Axis.tick, hf, if_true]
    rw [if_pos h]
    exact ⟨rfl, rfl⟩
  · simp only [Axis.tick, hf, if_true]
    rw [if_neg h]
    exact ⟨rfl, rfl⟩

/-- Witness for C2: the spec's settle example, a falling axis at `1/2` with a
1000 ms tick, settles to zero with `falling` cleared. -/
theorem axis_tick_falling_step_witness :
    ((Axis.mk (1/2) none true).tick (Duration.mk 1 0)).position = 0 ∧
    ((Axis.mk (1/2) none true).tick (Duration.mk 1 0)).falling = false :=
  (axis_tick_falling_step (Axis.mk (1/2) none true) (Duration.mk 1 0) rfl).2.2

/-- C7: after `Axis.tick` of a non-falling axis the position is clamped into
`[-1, 1]`, and the two boundary examples from the spec hold. -/
theorem axis_tick_nonfalling_clamped (a : Axis) (delta : Duration)
    (hf : a.falling = false) :
    (-1 ≤ (a.tick delta).position ∧ (a.tick delta).position ≤ 1) ∧
    ((Axis.mk (9/10) (some Direction.Up) false).tick (Duration.mk 1 0)).position = 1 ∧
    ((Axis.mk (-(9/10)) (some Direction.Down) false).tick (Duration.mk 1 0)).position = -1 := by
  refine ⟨?_, by decide, by decide⟩
  simp only [Axis.tick, hf, Bool.false_eq_true, if_false]
  split_ifs with h1 h2 <;> constructor <;> linarith

/-- Witness for C7: an idle axis at the origin stays inside `[-1, 1]`. -/
theorem axis_tick_nonfalling_clamped_witness :
    -1 ≤ ((Axis.mk 0 none false).tick (Duration.mk 0 0)).position ∧
    ((Axis.mk 0 none false).tick (Duration.mk 0 0)).position ≤ 1 :=
  (axis_tick_nonfalling_clamped (Axis.mk 0 none false) (Duration.mk 0 0) rfl).1

/-- C8 counterexample: with `velocity = none` and `falling = false` but a
position outside `[-1, 1]` (reachable via `apply (Position 2)`), `tick` does
not leave the position unchanged — the clamp pulls it to `1`. -/
theorem axis_tick_idle_clamps_counterexample :
    ((Axis.mk 2 none false).tick (Duration.mk 0 100000000)).position = 1 ∧
    ¬ ((Axis.mk 2 none false).tick (Duration.mk 0 100000000)).position =
        (Axis.mk 2 none false).position := by
  decide

/-- C8 (amended): `Axis.tick` with `velocity = none` and `falling = false`
leaves the position unchanged whenever it lies in the documented invariant
range `[-1, 1]`; an out-of-range position is instead clamped into that range. -/
theorem axis_tick_idle_in_range_unchanged (a : Axis) (delta : Duration)
    (hv : a.velocity = none) (hf : a.falling = false)
    (h1 : -1 ≤ a.position) (h2 : a.position ≤ 1) :
    (a.tick delta).position = a.position := by
  simp only [Axis.tick, hv, hf, Option.map_none', Option.getD_none, zero_mul,
    zero_div, add_zero, Bool.false_eq_true, if_false]
  rw [if_neg (not_lt.mpr h2), if_neg (not_lt.mpr h1)]

/-- Witness for C8 at a concrete in-range idle axis and a 100 ms tick. -/
theorem axis_tick_idle_in_range_unchanged_witness :
    ((Axis.mk (1/2) none false).tick (Duration.mk 0 100000000)).position =
      (Axis.mk (1/2) none false).position :=
  axis_tick_idle_in_range_unchanged (Axis.mk (1/2) none false)
    (Duration.mk 0 100000000) rfl rfl (by decide) (by decide)

end GameInput

namespace GameInput

variable {A B C : Type} [DecidableEq A] [DecidableEq B] [DecidableEq C]

/-! ### Registry kind invariant -/

theorem wfStates_find? {m : Manager A B C} (hw : WfStates m) {k : Binding A B}
    {v : State} (h : Map.find? m.states k = some v) : StateMatches k v = true :=
  List.all_eq_true.mp hw (k, v) (Map.mem_of_find? h)

theorem all_stateMatches_insert {s : List (Binding A B × State)}
    (hs : s.all (fun p => StateMatches p.1 p.2) = true) {k : Binding A B} {v : State}
    (hkv : StateMatches k v = true) :
    (Map.insert s k v).all (fun p => StateMatches p.1 p.2) = true := by
  rw [List.all_eq_true] at hs ⊢
  intro p hp
  rcases Map.mem_insert hp with h | h
  · exact hs p h
  · rw [h]
    exact hkv

theorem stateMatches_state_tick (k : Binding A B) (delta : Duration) (v : State) :
    StateMatches k (State.tick delta v) = StateMatches k v := by
  cases v <;> cases k <;> rfl

/-- C9: `apply_change` on a binding with no live state entry is a no-op: it
returns normally (never panics) with the manager unchanged in all three
maps, so no control is updated. -/
theorem manager_apply_change_unbound_noop (m : Manager A B C)
    (binding : Binding A B) (change : Change)
    (h : Map.find? m.states binding = none) :
    m.apply_change binding change = some m ∧
    ∀ m2, m.apply_change binding change = some m2 →
      m2.states = m.states ∧ m2.bindings = m.bindings ∧
      m2.default_changes = m.default_changes := by
  constructor
  · simp [Manager.apply_change, h]
  · intro m2 h2
    simp [Manager.apply_change, h] at h2
    rw [← h2]
    exact ⟨rfl, rfl, rfl⟩

/-- Witness for C9: on the empty manager every binding is unresolved, and
`apply_change` leaves it untouched. -/
theorem manager_apply_change_unbound_noop_witness :
    (Manager.new : Manager Nat Nat Nat).apply_change (Binding.Axis 0)
        (Change.Button ⟨true⟩) = some Manager.new ∧
    ∀ m2, (Manager.new : Manager Nat Nat Nat).apply_change (Binding.Axis 0)
        (Change.Button ⟨true⟩) = some m2 →
      m2.states = (Manager.new : Manager Nat Nat Nat).states ∧
      m2.bindings = (Manager.new : Manager Nat Nat Nat).bindings ∧
      m2.default_changes = (Manager.new : Manager Nat Nat Nat).default_changes :=
  manager_apply_change_unbound_noop Manager.new (Binding.Axis 0)
    (Change.Button ⟨true⟩) rfl

/-- C10: every `Manager` operation preserves the invariant that axis keys map
to axis states and button keys to button states; under the invariant the
`unreachable!()` branch of `apply_change` (modelled as the `none` result) can
be hit only by a kind-mismatched `Change`, and the kind-mismatch (`none`)
branches of `get_axis`/`get_button` are dead: those getters return `none`
exactly when the key is absent. -/
theorem manager_kind_invariant (m : Manager A B C) (hw : WfStates m) :
    WfStates (Manager.new : Manager A B C) ∧
    (∀ k i, WfStates (m.add_axis_binding k i)) ∧
    (∀ k i, WfStates (m.add_button_binding k i)) ∧
    (∀ ch i, WfStates (m.add_default_change ch i)) ∧
    (∀ delta, WfStates (m.tick delta)) ∧
    (∀ bind ch m2, m.apply_change bind ch = some m2 → WfStates m2) ∧
    (∀ bind ch, m.apply_change bind ch = none → ChangeMatches bind ch = false) ∧
    (∀ ka, m.get_axis ka = none ↔ Map.find? m.states (Binding.Axis ka) = none) ∧
    (∀ kb, m.get_button kb = none ↔ Map.find? m.states (Binding.Button kb) = none) := by
  refine ⟨rfl, ?_, ?_, fun ch i => hw, ?_, ?_, ?_, ?_, ?_⟩
  · intro k i
    simp only [Manager.add_axis_binding]
    split
    · exact hw
    · exact all_stateMatches_insert hw rfl
  · intro k i
    simp only [Manager.add_button_binding]
    split
    · exact hw
    · exact all_stateMatches_insert hw rfl
  · intro delta
    refine List.all_eq_true.mpr ?_
    intro p hp
    simp only [Manager.tick, List.mem_map] at hp
    obtain ⟨q, hq, rfl⟩ := hp
    show StateMatches q.1 (State.tick delta q.2) = true
    exact (stateMatches_state_tick q.1 delta q.2).trans (List.all_eq_true.mp hw q hq)
  · intro bind ch m2 h2
    cases hfind : Map.find? m.states bind with
    | none =>
      simp only [Manager.apply_change, hfind, Option.some.injEq] at h2
      rw [← h2]
      exact hw
    | some st =>
      have hst := wfStates_find? hw hfind
      cases st with
      | Axis a =>
        cases ch with
        | Axis c =>
          simp only [Manager.apply_change, hfind, Option.some.injEq] at h2
          rw [← h2]
          refine all_stateMatches_insert hw ?_
          cases bind with
          | Axis ka => rfl
          | Button kb => exact Bool.noConfusion hst
        | Button c =>
          simp only [Manager.apply_change, hfind] at h2
          exact Option.noConfusion h2
      | Button b =>
        cases ch with
        | Axis c =>
          simp only [Manager.apply_change, hfind] at h2
          exact Option.noConfusion h2
        | Button c =>
          simp only [Manager.apply_change, hfind, Option.some.injEq] at h2
          rw [← h2]
          refine all_stateMatches_insert hw ?_
          cases bind with
          | Axis ka => exact Bool.noConfusion hst
          | Button kb => rfl
  · intro bind ch h2
    cases hfind : Map.find? m.states bind with
    | none =>
      simp only [Manager.apply_change, hfind] at h2
      exact Option.noConfusion h2
    | some st =>
      have hst := wfStates_find? hw hfind
      cases st with
      | Axis a =>
        cases ch with
        | Axis c =>
          simp only [Manager.apply_change, hfind] at h2
          exact Option.noConfusion h2
        | Button c =>
          cases bind with
          | Axis ka => rfl
          | Button kb => exact Bool.noConfusion hst
      | Button b =>
        cases ch with
        | Axis c =>
          cases bind with
          | Axis ka => exact Bool.noConfusion hst
          | Button kb => rfl
        | Button c =>
          simp only [Manager.apply_change, hfind] at h2
          exact Option.noConfusion h2
  · intro ka
    cases hfind : Map.find? m.states (Binding.Axis ka) with
    | none => simp [Manager.get_axis, hfind]
    | some st =>
      have hst := wfStates_find? hw hfind
      cases st with
      | Axis a => simp [Manager.get_axis, hfind]
      | Button b => exact Bool.noConfusion hst
  · intro kb
    cases hfind : Map.find? m.states (Binding.Button kb) with
    | none => simp [Manager.get_button, hfind]
    | some st =>
      have hst := wfStates_find? hw hfind
      cases st with
      | Axis a => exact Bool.noConfusion hst
      | Button b => simp [Manager.get_button, hfind]

/-- Witness for C10 on a concrete two-entry registry: the invariant holds and
is preserved by a further axis registration. -/
theorem manager_kind_invariant_witness :
    WfStates (((Manager.new : Manager Nat Nat Nat).add_axis_binding 0 0).add_button_binding 1 1) ∧
    WfStates ((((Manager.new : Manager Nat Nat Nat).add_axis_binding 0 0).add_button_binding 1 1).add_axis_binding 2 3) :=
  ⟨by decide,
   (manager_kind_invariant
      (((Manager.new : Manager Nat Nat Nat).add_axis_binding 0 0).add_button_binding 1 1)
      (by decide)).2.1 2 3⟩

end GameInput

namespace GameInput

variable {A B C : Type} [DecidableEq A] [DecidableEq B] [DecidableEq C]

theorem get_button_eq_some {m : Manager A B C} {kb : B} {btn : Button}
    (h : m.get_button kb = some btn) :
    Map.find? m.states (Binding.Button kb) = some (State.Button btn) := by
  cases hfind : Map.find? m.states (Binding.Button kb) with
  | none => simp [Manager.get_button, hfind] at h
  | some st =>
    cases st with
    | Axis a => simp [Manager.get_button, hfind] at h
    | Button b =>
      simp [Manager.get_button, hfind] at h
      rw [h]

theorem manager_get_button_tick (m : Manager A B C) (delta : Duration) (kb : B) :
    (m.tick delta).get_button kb = (m.get_button kb).map Button.tick := by
  simp only [Manager.get_button, Manager.tick, Map.find?_map]
  cases Map.find? m.states (Binding.Button kb) with
  | none => rfl
  | some st => cases st <;> rfl

/-- C3: registering an already-known logical `Binding` again (under any raw
input) leaves the live state store untouched — state is created only on first
registration — and in particular an axis whose position was mutated between
two `add_axis_binding` calls for the same axis key keeps that position. -/
theorem manager_rebind_preserves_state (m : Manager A B C) (hw : WfStates m)
    (k : A) (kb : B) (iA iB : C) (p : ℚ) :
    (Map.contains m.states (Binding.Axis k) = true →
      (m.add_axis_binding k iB).states = m.states) ∧
    (Map.contains m.states (Binding.Button kb) = true →
      (m.add_button_binding kb iB).states = m.states) ∧
    (∃ m2, (m.add_axis_binding k iA).apply_change (Binding.Axis k)
        (Change.Axis (AxisChange.Position p)) = some m2 ∧
      ((m2.add_axis_binding k iB).get_axis k).map Axis.position = some p ∧
      (m2.add_axis_binding k iB).states = m2.states) := by
  refine ⟨?_, ?_, ?_⟩
  · intro hc
    simp [Manager.add_axis_binding, hc]
  · intro hc
    simp [Manager.add_button_binding, hc]
  · have hfind1 : ∃ a : Axis, Map.find? (m.add_axis_binding k iA).states
        (Binding.Axis k) = some (State.Axis a) := by
      by_cases hc : Map.contains m.states (Binding.Axis k) = true
      · obtain ⟨v, hv⟩ := Map.contains_iff_find?.mp hc
        have hst := wfStates_find? hw hv
        cases v with
        | Axis a => exact ⟨a, by simp [Manager.add_axis_binding, hc, hv]⟩
        | Button b => exact Bool.noConfusion hst
      · exact ⟨Axis.default, by
          simp [Manager.add_axis_binding, hc, Map.find?_insert_self]⟩
    obtain ⟨a, hfa⟩ := hfind1
    refine ⟨{ m.add_axis_binding k iA with
        states := Map.insert (m.add_axis_binding k iA).states (Binding.Axis k)
          (State.Axis (a.apply (AxisChange.Position p))) }, ?_, ?_, ?_⟩
    · simp [Manager.apply_change, hfa]
    · simp [Manager.add_axis_binding, Map.contains_insert_self,
        Manager.get_axis, Map.find?_insert_self, Axis.apply]
    · simp [Manager.add_axis_binding, Map.contains_insert_self]

/-- Witness for C3: on an initially empty manager, binding an axis, mutating
its position to `1/2`, and rebinding it to a different raw input keeps the
mutated position. -/
theorem manager_rebind_preserves_state_witness :
    WfStates (Manager.new : Manager Nat Nat Nat) ∧
    (∃ m2, ((Manager.new : Manager Nat Nat Nat).add_axis_binding 0 1).apply_change
        (Binding.Axis 0) (Change.Axis (AxisChange.Position (1/2))) = some m2 ∧
      ((m2.add_axis_binding 0 2).get_axis 0).map Axis.position = some (1/2) ∧
      (m2.add_axis_binding 0 2).states = m2.states) :=
  ⟨by decide,
   (manager_rebind_preserves_state Manager.new (by decide) 0 0 1 2 (1/2)).2.2⟩

/-- C6: `get_button_pressed` is true iff a button state exists for the key
with both `pressed` and `new_event` set; an unbound key reads `false`;
immediately after any `tick` it reads `false`, and re-applying the held value
after a tick keeps it `false` (edge-triggered, not level-triggered). -/
theorem manager_get_button_pressed_edge (m : Manager A B C) (kb : B) :
    (m.get_button_pressed kb = true ↔
      ∃ btn, m.get_button kb = some btn ∧ btn.pressed = true ∧
        btn.new_event = true) ∧
    (m.get_button kb = none → m.get_button_pressed kb = false) ∧
    (∀ delta, (m.tick delta).get_button_pressed kb = false) ∧
    (∀ delta btn, m.get_button kb = some btn →
      ∃ m2, (m.tick delta).apply_change (Binding.Button kb)
          (Change.Button ⟨btn.pressed⟩) = some m2 ∧
        m2.get_button_pressed kb = false) := by
  refine ⟨?_, ?_, ?_, ?_⟩
  · cases hgb : m.get_button kb with
    | none => simp [Manager.get_button_pressed, hgb]
    | some b => simp [Manager.get_button_pressed, hgb, Bool.and_eq_true]
  · intro h
    simp [Manager.get_button_pressed, h]
  · intro delta
    rw [Manager.get_button_pressed, manager_get_button_tick]
    cases m.get_button kb <;> simp [Button.tick]
  · intro delta btn hgb
    have hfind := get_button_eq_some hgb
    have hfind2 : Map.find? (m.tick delta).states (Binding.Button kb) =
        some (State.Button btn.tick) := by
      simp only [Manager.tick, Map.find?_map, hfind, Option.map_some']
      rfl
    refine ⟨{ m.tick delta with
        states := Map.insert (m.tick delta).states (Binding.Button kb)
          (State.Button ((btn.tick).apply btn.pressed)) }, ?_, ?_⟩
    · simp [Manager.apply_change, hfind2]
    · simp [Manager.get_button_pressed, Manager.get_button, Map.find?_insert_self,
        Button.apply_new_event, Button.tick]

/-- Witness for C6: a freshly bound button reports no "just pressed" edge
after a tick followed by a held re-apply of its current value. -/
theorem manager_get_button_pressed_edge_witness :
    ((Manager.new : Manager Nat Nat Nat).add_button_binding 7 5).get_button 7 =
      some Button.default ∧
    (∃ m2, (((Manager.new : Manager Nat Nat Nat).add_button_binding 7 5).tick
          (Duration.mk 0 0)).apply_change (Binding.Button 7)
          (Change.Button ⟨Button.default.pressed⟩) = some m2 ∧
        m2.get_button_pressed 7 = false) :=
  ⟨by decide,
   (manager_get_button_pressed_edge
      ((Manager.new : Manager Nat Nat Nat).add_button_binding 7 5) 7).2.2.2
     (Duration.mk 0 0) Button.default (by decide)⟩

end GameInput
